import Mathlib

/-
  Verification of the segmentation-and-position-reconciliation pipeline of
  typst-languagetool. The definitions below are a shallow embedding of
  src/output.rs (Position, output_diagnostics) and of the LSP backend in
  src/bin/typst-lt-lsp.rs (on_change, code_action, the diagnostics map).

  Modelling conventions:
  - Rust usize arithmetic is modelled with Nat. Wherever the source computes
    a usize subtraction `a - b` that underflows when `b > a` (a panic in a
    debug build; in a release build the wrapped value feeds an `advance` that
    then exhausts the character stream and panics on `unwrap`), the embedding
    returns `none`; every observable outcome of such an underflow in the
    source is an aborted pass, which is what `none` denotes.
  - The `as u32` narrowing of line/column at the protocol boundary is not
    modelled: line and column are bounded by one plus the document length.
  - Fallible code (a panicking `unwrap` in `Position::advance`) is modelled
    with Option.
  - The Chars iterator of the remaining document text is modelled as a
    List Char.
-/

namespace TypstLt

/-- The single-quote character, used by the quick-fix titles produced by
format in output.rs (Replace with <quote>value<quote>). -/
def squote : String := String.singleton (Char.ofNat 39)

/-- Embeds struct Position of src/output.rs: a 1-based (line, column) pair
plus the remaining, not-yet-consumed character stream (Chars iterator). -/
structure Position where
  line : Nat
  column : Nat
  content : List Char
deriving DecidableEq

/-- Embeds Position::new: line 1, column 1, the whole text remaining. -/
def Position.new (s : String) : Position :=
  ⟨1, 1, s.data⟩

/-- Embeds Position::advance of src/output.rs: consume amount characters one
at a time; a newline increments line and resets column to 1, any other
character increments column. The source calls unwrap on the iterator, so an
exhausted stream is a panic, modelled as none. -/
def Position.advance : Position → Nat → Option Position
  | p, 0 => some p
  | p, n + 1 =>
    match p.content with
    | [] => none
    | c :: rest =>
      if c = '\n' then Position.advance ⟨p.line + 1, 1, rest⟩ n
      else Position.advance ⟨p.line, p.column + 1, rest⟩ n

/-- Embeds the derived Clone of Position: a field-wise copy, the remaining
stream included. -/
def Position.clone (p : Position) : Position :=
  ⟨p.line, p.column, p.content⟩

/-- One suggested replacement of a match (languagetool-rust field value). -/
structure Replacement where
  value : String
deriving DecidableEq

/-- The fields of languagetool-rust check::Match consumed by
output_diagnostics: offset and length in characters, the message and the
replacement suggestions. -/
structure Match where
  offset : Nat
  length : Nat
  message : String
  replacements : List Replacement
deriving DecidableEq

/-- The field of languagetool-rust CheckResponse consumed by
output_diagnostics: the ordered list of matches. The Rust field is named
matches, a reserved token in Lean. -/
structure CheckResponse where
  matchList : List Match
deriving DecidableEq

/-- Embeds lsp_types Position: 0-based line and character, ordered
lexicographically by the derived PartialOrd. -/
structure LspPos where
  line : Nat
  character : Nat
deriving DecidableEq

/-- The derived lexicographic order on lsp_types Position, as a Boolean. -/
def LspPos.le (a b : LspPos) : Bool :=
  Nat.blt a.line b.line || (a.line == b.line && Nat.ble a.character b.character)

/-- Embeds lsp_types Range. The stop field is the Rust field named end,
which is a reserved word in Lean. -/
structure LspRange where
  start : LspPos
  stop : LspPos
deriving DecidableEq

/-- Embeds lsp_types TextEdit: a range and the replacement text. -/
structure TextEdit where
  range : LspRange
  newText : String
deriving DecidableEq

/-- Embeds the part of lsp_types WorkspaceEdit that output_diagnostics
fills: the changes map from a document url to a list of text edits. -/
structure WorkspaceEdit where
  changes : List (String × List TextEdit)
deriving DecidableEq

/-- Embeds the fields of lsp_types CodeAction set by output_diagnostics:
title, kind, the workspace edit and the is_preferred flag. -/
structure CodeAction where
  title : String
  kind : String
  edit : WorkspaceEdit
  isPreferred : Bool
deriving DecidableEq

/-- The CodeActionKind QUICKFIX constant. -/
def quickfix : String := "quickfix"

/-- Embeds the fields of lsp_types Diagnostic set by output_diagnostics:
range and message. -/
structure Diagnostic where
  range : LspRange
  message : String
deriving DecidableEq

/-- The protocol range emitted for a match: the internal 1-based (line,
column) of the start and end Positions, each lowered by 1 to the 0-based
protocol coordinates (lines 25 to 34 of src/output.rs). -/
def matchRange (start stop : Position) : LspRange :=
  ⟨⟨start.line - 1, start.column - 1⟩, ⟨stop.line - 1, stop.column - 1⟩⟩

/-- The quick-fix actions for one match: one action per replacement, titled
Replace with <quote>value<quote>, kind quickfix, whose edit replaces the
match range with the replacement value (lines 35 to 59 of src/output.rs). -/
def matchActions (url : String) (range : LspRange) (info : Match) : List CodeAction :=
  info.replacements.map (fun r =>
    ⟨"Replace with " ++ squote ++ r.value ++ squote, quickfix,
     ⟨[(url, [⟨range, r.value⟩])]⟩, true⟩)

/-- The loop of output_diagnostics (lines 18 to 70 of src/output.rs): for
each match, advance the tracker from the last consumed offset to the match
offset (a usize subtraction that underflows when the offset is below the
previous offset, modelled as none), clone the tracker and advance the clone
by the match length to obtain the end position, emit the diagnostic and its
actions, and set the last consumed offset to the match offset. Returns the
tracker, the last consumed offset and the emitted pairs. -/
def mapMatches (url : String) : Position → Nat → List Match →
    Option (Position × Nat × List (Diagnostic × List CodeAction))
  | pos, last, [] => some (pos, last, [])
  | pos, last, info :: rest =>
    if info.offset < last then none
    else
      match pos.advance (info.offset - last) with
      | none => none
      | some start =>
        match (Position.clone start).advance info.length with
        | none => none
        | some stop =>
          match mapMatches url start info.offset rest with
          | none => none
          | some (pf, lastf, out) =>
            some (pf, lastf,
              (⟨matchRange start stop, info.message⟩,
               matchActions url (matchRange start stop) info) :: out)

/-- Embeds output_diagnostics of src/output.rs: run the match loop starting
from last consumed offset 0, then advance the tracker by total minus the
last consumed offset (line 71) so the whole chunk is consumed. Returns the
final tracker together with the diagnostic and action pairs; none models a
panic (stream exhaustion or usize underflow). -/
def output_diagnostics (start : Position) (response : CheckResponse) (total : Nat)
    (url : String) : Option (Position × List (Diagnostic × List CodeAction)) :=
  match mapMatches url start 0 response.matchList with
  | none => none
  | some (p, last, out) =>
    if total < last then none
    else
      match p.advance (total - last) with
      | none => none
      | some final => some (final, out)

/-- The diagnostics map of the Backend in src/bin/typst-lt-lsp.rs: document
url to the stored list of diagnostic and action pairs. -/
abbrev Store := List (String × List (Diagnostic × List CodeAction))

/-- One chunk outcome as seen by the loop of Backend::on_change: the chunk
total length (items.1) together with the result of the checking-service
call, none modelling the Err branch (a failed service call). -/
structure ChunkResult where
  response : Option CheckResponse
  total : Nat
deriving DecidableEq

/-- The chunk loop of Backend::on_change (lines 192 to 211 of
src/bin/typst-lt-lsp.rs): on a successful service call the response is fed
to output_diagnostics with the shared tracker and the results are appended;
on a failed call the error is only logged and the loop continues with the
tracker untouched. A none result models a panic inside output_diagnostics,
which aborts the whole handler. -/
def on_change_loop (url : String) : Position → List ChunkResult →
    Option (Position × List (Diagnostic × List CodeAction))
  | pos, [] => some (pos, [])
  | pos, chunk :: rest =>
    match chunk.response with
    | none => on_change_loop url pos rest
    | some resp =>
      match output_diagnostics pos resp chunk.total url with
      | none => none
      | some (p, ds) =>
        match on_change_loop url p rest with
        | none => none
        | some (pf, ds2) => some (pf, ds ++ ds2)

/-- Embeds the tail of Backend::on_change (lines 213 to 222): once the loop
finishes, the accumulated diagnostics replace the entry of the document in
the diagnostics map (DashMap insert, modelled as prepending the binding so
that lookup finds it first). A panic (none) aborts before the insert, so the
map keeps its previous binding. -/
def on_change (store : Store) (uri : String) (text : String)
    (chunks : List ChunkResult) : Store :=
  match on_change_loop uri (Position.new text) chunks with
  | none => store
  | some r => (uri, r.2) :: store

/-- Embeds Backend::code_action (lines 105 to 151 of
src/bin/typst-lt-lsp.rs): look the document up in the diagnostics map
(an unknown document yields the empty list), keep the stored diagnostics d
with d.range.start less or equal range.start and range.start less or equal
d.range.end, and concatenate their action lists. -/
def code_action (store : Store) (uri : String) (range : LspRange) : List CodeAction :=
  match store.lookup uri with
  | none => []
  | some diagnostics_for_file =>
    ((diagnostics_for_file.filter (fun d =>
        LspPos.le d.1.range.start range.start && LspPos.le range.start d.1.range.stop)).map
      (fun d => d.2)).flatten

/-- One character step of the line and column update of Position::advance:
a newline increments the line and resets the column to 1, any other
character increments the column. -/
def stepPos (lc : Nat × Nat) (c : Char) : Nat × Nat :=
  if c = '\n' then (lc.1 + 1, 1) else (lc.1, lc.2 + 1)

/-- Unfolding lemma for Position.advance on a non-empty stream: one
character is consumed and the line and column are updated by stepPos. -/
theorem advance_succ_cons (l c0 : Nat) (ch : Char) (rest : List Char) (n : Nat) :
    Position.advance ⟨l, c0, ch :: rest⟩ (n + 1) =
      Position.advance ⟨(stepPos (l, c0) ch).1, (stepPos (l, c0) ch).2, rest⟩ n := by
  by_cases h : ch = '\n' <;> simp [Position.advance, stepPos, h]

/-- Success characterization of Position.advance: when the requested amount
does not exceed the remaining stream, advance succeeds, drops exactly that
many characters, folds stepPos over the consumed prefix, and never
decreases the line. -/
theorem advance_some : ∀ (n : Nat) (p : Position), n ≤ p.content.length →
    ∃ q, p.advance n = some q ∧ q.content = p.content.drop n ∧
      (q.line, q.column) = (p.content.take n).foldl stepPos (p.line, p.column) ∧
      p.line ≤ q.line := by
  intro n
  induction n with
  | zero =>
    intro p _
    exact ⟨p, rfl, rfl, rfl, Nat.le_refl _⟩
  | succ n ih =>
    intro p h
    obtain ⟨l, c0, content⟩ := p
    cases content with
    | nil => simp at h
    | cons ch rest =>
      have h2 : n ≤ rest.length := by
        simp only [List.length_cons] at h
        omega
      obtain ⟨q, hq, hc, hlc, hl⟩ :=
        ih ⟨(stepPos (l, c0) ch).1, (stepPos (l, c0) ch).2, rest⟩ h2
      refine ⟨q, ?_, ?_, ?_, ?_⟩
      · rw [advance_succ_cons]
        exact hq
      · simpa using hc
      · simpa using hlc
      · refine Nat.le_trans ?_ hl
        simp only [stepPos]
        split <;> simp

/-- Failure characterization of Position.advance: when the requested amount
exceeds the remaining stream, advance hits the exhausted iterator and
fails. -/
theorem advance_none : ∀ (n : Nat) (p : Position), p.content.length < n →
    p.advance n = none := by
  intro n
  induction n with
  | zero =>
    intro p h
    exact absurd h (Nat.not_lt_zero _)
  | succ n ih =>
    intro p h
    obtain ⟨l, c0, content⟩ := p
    cases content with
    | nil => rfl
    | cons ch rest =>
      rw [advance_succ_cons]
      apply ih
      show rest.length < n
      simp only [List.length_cons] at h
      omega

/-- Additivity of Position.advance: advancing by a plus b is advancing by a
and then by b. -/
theorem advance_add : ∀ (a : Nat) (p : Position) (b : Nat),
    p.advance (a + b) = (p.advance a).bind (fun q => q.advance b) := by
  intro a
  induction a with
  | zero =>
    intro p b
    simp [Position.advance]
  | succ a ih =>
    intro p b
    obtain ⟨l, c0, content⟩ := p
    cases content with
    | nil =>
      have e : a + 1 + b = (a + b) + 1 := by omega
      rw [e]
      rfl
    | cons ch rest =>
      have e : a + 1 + b = (a + b) + 1 := by omega
      rw [e, advance_succ_cons, advance_succ_cons, ih]

/-- A successful advance consumed exactly its argument from the stream. -/
theorem advance_content (n : Nat) (p q : Position) (h : p.advance n = some q) :
    q.content = p.content.drop n := by
  have hle : n ≤ p.content.length := by
    by_contra hlt
    rw [advance_none n p (by omega)] at h
    exact Option.noConfusion h
  obtain ⟨q', hq', hc, _, _⟩ := advance_some n p hle
  rw [hq'] at h
  injection h with h
  rw [← h]
  exact hc

/-- The derived Clone of Position copies every field, so the clone equals
the cloned value. -/
@[simp]
theorem clone_eq (p : Position) : Position.clone p = p := rfl

/-- Invariant of the match loop: for matches with ascending offsets that
all lie within the chunk and a tracker holding at least the rest of the
chunk, the loop succeeds, the final last consumed offset stays within the
chunk, and the tracker ends exactly at that offset. -/
theorem mapMatches_spec (url : String) : ∀ (ms : List Match) (pos : Position)
    (last total : Nat),
    List.Pairwise (fun a b => a.offset ≤ b.offset) ms →
    (∀ m ∈ ms, last ≤ m.offset ∧ m.offset + m.length ≤ total) →
    last ≤ total →
    total - last ≤ pos.content.length →
    ∃ pf lastf out, mapMatches url pos last ms = some (pf, lastf, out) ∧
      last ≤ lastf ∧ lastf ≤ total ∧ pos.advance (lastf - last) = some pf := by
  intro ms
  induction ms with
  | nil =>
    intro pos last total _ _ hlt _
    exact ⟨pos, last, [], rfl, Nat.le_refl _, hlt, by simp [Position.advance]⟩
  | cons info rest ih =>
    intro pos last total hpair hmem hlt hrem
    obtain ⟨hlast, hlen⟩ := hmem info (List.mem_cons_self info rest)
    have hnotlt : ¬ info.offset < last := by omega
    have hofftot : info.offset ≤ total := by omega
    have hadv1 : info.offset - last ≤ pos.content.length := by omega
    obtain ⟨start, hstart, hcs, _, _⟩ := advance_some (info.offset - last) pos hadv1
    have hslen : start.content.length = pos.content.length - (info.offset - last) := by
      rw [hcs, List.length_drop]
    have hadv2 : info.length ≤ start.content.length := by omega
    obtain ⟨stop, hstop, _, _, _⟩ := advance_some info.length start hadv2
    obtain ⟨hhead, hptail⟩ := List.pairwise_cons.mp hpair
    have hmem2 : ∀ m ∈ rest, info.offset ≤ m.offset ∧ m.offset + m.length ≤ total := by
      intro m hm
      exact ⟨hhead m hm, (hmem m (List.mem_cons_of_mem _ hm)).2⟩
    have hrem2 : total - info.offset ≤ start.content.length := by omega
    obtain ⟨pf, lastf, out, hrec, h1, h2, hadvf⟩ :=
      ih start info.offset total hptail hmem2 hofftot hrem2
    refine ⟨pf, lastf,
      (⟨matchRange start stop, info.message⟩,
        matchActions url (matchRange start stop) info) :: out, ?_, by omega, h2, ?_⟩
    · unfold mapMatches
      rw [if_neg hnotlt]
      simp only [clone_eq, hstart, hstop, hrec]
    · have e : lastf - last = (info.offset - last) + (lastf - info.offset) := by omega
      rw [e, advance_add, hstart]
      exact hadvf

/-- Claim C1: on the document Helo world newline This are bad (25
characters), a fresh tracker and the two matches (offset 0, length 4,
Spelling, replacement Hello) and (offset 17, length 3, Grammar, replacement
is), output_diagnostics returns exactly two diagnostics: the first with
emitted 0-based range (0,0)-(0,4) (internal 1-based (1,1)-(1,5)), message
Spelling, one quick-fix titled Replace with Hello in single quotes; the
second with emitted range (1,5)-(1,8) (internal (2,6)-(2,9)), message
Grammar, one quick-fix titled Replace with is in single quotes. -/
theorem c1_example_two_matches :
    output_diagnostics (Position.new "Helo world.\nThis are bad.")
      ⟨[⟨0, 4, "Spelling", [⟨"Hello"⟩]⟩, ⟨17, 3, "Grammar", [⟨"is"⟩]⟩]⟩ 25 "file:a"
    = some (⟨2, 14, []⟩,
        [(⟨⟨⟨0, 0⟩, ⟨0, 4⟩⟩, "Spelling"⟩,
          [⟨"Replace with " ++ squote ++ "Hello" ++ squote, quickfix,
            ⟨[("file:a", [⟨⟨⟨0, 0⟩, ⟨0, 4⟩⟩, "Hello"⟩])]⟩, true⟩]),
         (⟨⟨⟨1, 5⟩, ⟨1, 8⟩⟩, "Grammar"⟩,
          [⟨"Replace with " ++ squote ++ "is" ++ squote, quickfix,
            ⟨[("file:a", [⟨⟨⟨1, 5⟩, ⟨1, 8⟩⟩, "is"⟩])]⟩, true⟩])]) := by
  decide

/-- Claim C2: evaluation at the failing input. In the chunk loop of
Backend::on_change a failed service call leaves the tracker untouched, so
the start Position used for the next chunk differs from the success case.
Over the document ab newline cd with chunk 1 of total length 3 and chunk 2
of total length 2 holding one match (offset 0, length 1), the failing run
maps the match at emitted range (0,0)-(0,1) while the run where chunk 1
succeeds with no matches maps the same match at (1,0)-(1,1). -/
theorem c2_failed_chunk_not_advanced :
    on_change_loop "u" (Position.new "ab\ncd")
        [⟨none, 3⟩, ⟨some ⟨[⟨0, 1, "x", []⟩]⟩, 2⟩]
      = some (⟨1, 3, ['\n', 'c', 'd']⟩, [(⟨⟨⟨0, 0⟩, ⟨0, 1⟩⟩, "x"⟩, [])]) ∧
    on_change_loop "u" (Position.new "ab\ncd")
        [⟨some ⟨[]⟩, 3⟩, ⟨some ⟨[⟨0, 1, "x", []⟩]⟩, 2⟩]
      = some (⟨2, 3, []⟩, [(⟨⟨⟨1, 0⟩, ⟨1, 1⟩⟩, "x"⟩, [])]) := by
  constructor <;> decide

/-- Claim C3, counterexample: a pass in which the service call of chunk 1
fails still replaces the stored entry of the document. With a previously
stored diagnostic old at range (9,9)-(9,9), the entry after the pass is the
freshly mapped list, not the previous one. -/
theorem c3_store_replaced_counterexample :
    (on_change [("u", [(⟨⟨⟨9, 9⟩, ⟨9, 9⟩⟩, "old"⟩, [])])] "u" "ab\ncd"
        [⟨none, 3⟩, ⟨some ⟨[⟨0, 1, "x", []⟩]⟩, 2⟩]).lookup "u"
      ≠ some [(⟨⟨⟨9, 9⟩, ⟨9, 9⟩⟩, "old"⟩, [])] := by
  decide

/-- Claim C3 as amended: a failed service call for some chunk does not
abort the pass; when the loop finishes normally the store entry for the
document is replaced by the diagnostics of the successful chunks (a partial
result is published), and only when the pass dies in a panic (none) is the
store left unchanged. -/
theorem c3_failed_chunk_still_publishes (store : Store) (uri text : String)
    (chunks : List ChunkResult) (_hfail : ∃ c ∈ chunks, c.response = none) :
    (∀ r, on_change_loop uri (Position.new text) chunks = some r →
      (on_change store uri text chunks).lookup uri = some r.2) ∧
    (on_change_loop uri (Position.new text) chunks = none →
      on_change store uri text chunks = store) := by
  constructor
  · intro r hr
    unfold on_change
    rw [hr]
    simp [List.lookup]
  · intro hr
    unfold on_change
    rw [hr]

/-- Claim C3, witness for the amended theorem at a one-chunk input whose
service call fails. -/
theorem c3_witness :
    (∃ c ∈ [(⟨none, 1⟩ : ChunkResult)], c.response = none) ∧
    ((∀ r, on_change_loop "u" (Position.new "a") [⟨none, 1⟩] = some r →
        (on_change [] "u" "a" [⟨none, 1⟩]).lookup "u" = some r.2) ∧
      (on_change_loop "u" (Position.new "a") [⟨none, 1⟩] = none →
        on_change [] "u" "a" [⟨none, 1⟩] = [])) :=
  ⟨⟨⟨none, 1⟩, by simp, rfl⟩,
   c3_failed_chunk_still_publishes [] "u" "a" [⟨none, 1⟩] ⟨⟨none, 1⟩, by simp, rfl⟩⟩

/-- Claim C4, counterexample: containment in code_action is closed at the
diagnostic range end, not half-open. A query whose start equals the stored
range end (0,4) still receives the action of that diagnostic. -/
theorem c4_end_point_counterexample :
    code_action [("u", [(⟨⟨⟨0, 0⟩, ⟨0, 4⟩⟩, "m"⟩, [⟨"t", quickfix, ⟨[]⟩, true⟩])])]
        "u" ⟨⟨0, 4⟩, ⟨0, 4⟩⟩ = [⟨"t", quickfix, ⟨[]⟩, true⟩] ∧
    ([(⟨"t", quickfix, ⟨[]⟩, true⟩ : CodeAction)] : List CodeAction) ≠ [] := by
  constructor <;> decide

/-- Claim C4 as amended: the returned action list is the union of the
action lists of the stored diagnostics whose range contains the query start
under closed containment, range.start less or equal point less or equal
range.end; a point exactly equal to a diagnostic range end does contribute
its actions; an unknown document yields the empty list. -/
theorem c4_code_action_closed_containment (store : Store) (uri : String)
    (range : LspRange) (a : CodeAction) :
    a ∈ code_action store uri range ↔
      ∃ entry, store.lookup uri = some entry ∧
        ∃ d ∈ entry, a ∈ d.2 ∧
          (LspPos.le d.1.range.start range.start
            && LspPos.le range.start d.1.range.stop) = true := by
  unfold code_action
  cases h : store.lookup uri with
  | none => simp
  | some entry =>
    simp only [Option.some.injEq, exists_eq_left', List.mem_flatten, List.mem_map,
      List.mem_filter]
    constructor
    · rintro ⟨l, ⟨d, ⟨hd, hp⟩, rfl⟩, ha⟩
      exact ⟨d, hd, ha, hp⟩
    · rintro ⟨d, hd, ha, hp⟩
      exact ⟨d.2, ⟨d, ⟨hd, hp⟩, rfl⟩, ha⟩

/-- Claim C5, counterexample: two overlapping matches with ascending
offsets (offset 0 length 10 and offset 5 length 10) are not rejected; the
mapper processes the response normally. -/
theorem c5_overlap_accepted :
    (output_diagnostics (Position.new "aaaaaaaaaaaaaaaaaaaaaaaaa")
      ⟨[⟨0, 10, "m1", []⟩, ⟨5, 10, "m2", []⟩]⟩ 25 "u").isSome = true := by
  decide

/-- Claim C5 as amended: the mapper performs no validation of the service
contract. A match whose offset is below the previous match offset makes the
usize subtraction underflow and the pass die (none, the modelled panic)
rather than produce a per-chunk error value, and the offsets are never
silently clamped; overlapping matches with ascending offsets are accepted
and mapped as ordinary matches; the tracker never advances backward since
advance only consumes forward. -/
theorem c5_out_of_order_fails (p : Position) (url : String) (m1 m2 : Match)
    (rest : List Match) (total : Nat) (h : m2.offset < m1.offset) :
    output_diagnostics p ⟨m1 :: m2 :: rest⟩ total url = none := by
  have h0 : ¬ m1.offset < 0 := by omega
  have hmm : ∀ q : Position, mapMatches url q m1.offset (m2 :: rest) = none := by
    intro q
    unfold mapMatches
    rw [if_pos h]
  have hmm2 : mapMatches url p 0 (m1 :: m2 :: rest) = none := by
    unfold mapMatches
    rw [if_neg h0]
    simp only [hmm]
    split
    · rfl
    · split <;> rfl
  unfold output_diagnostics
  rw [hmm2]

/-- Claim C5, witness for the amended theorem: the second match offset 1 is
below the first match offset 3, and the pass fails. -/
theorem c5_witness :
    (⟨1, 0, "b", ([] : List Replacement)⟩ : Match).offset
      < (⟨3, 0, "a", ([] : List Replacement)⟩ : Match).offset ∧
    output_diagnostics (Position.new "abcde")
      ⟨[⟨3, 0, "a", []⟩, ⟨1, 0, "b", []⟩]⟩ 5 "u" = none :=
  ⟨by decide,
   c5_out_of_order_fails (Position.new "abcde") "u" ⟨3, 0, "a", []⟩ ⟨1, 0, "b", []⟩
     [] 5 (by decide)⟩

/-- Claim C6: when n does not exceed the remaining character count, advance
consumes exactly n characters (the remaining stream loses its n-prefix) and
the line and column are updated one consumed character at a time by
stepPos: a newline increments line by exactly 1 and resets column to 1, any
other character increments column by exactly 1 and leaves line unchanged;
the line never decreases. -/
theorem c6_advance_line_column (p : Position) (n : Nat)
    (h : n ≤ p.content.length) :
    ∃ q, p.advance n = some q ∧ q.content = p.content.drop n ∧
      (q.line, q.column) = (p.content.take n).foldl stepPos (p.line, p.column) ∧
      p.line ≤ q.line :=
  advance_some n p h

/-- Claim C6, witness at the document a newline b advanced by 2. -/
theorem c6_witness :
    2 ≤ (Position.new "a\nb").content.length ∧
    ∃ q, (Position.new "a\nb").advance 2 = some q ∧
      q.content = (Position.new "a\nb").content.drop 2 ∧
      (q.line, q.column) = ((Position.new "a\nb").content.take 2).foldl stepPos
        ((Position.new "a\nb").line, (Position.new "a\nb").column) ∧
      (Position.new "a\nb").line ≤ q.line :=
  ⟨by decide, c6_advance_line_column (Position.new "a\nb") 2 (by decide)⟩

/-- Claim C7: when n exceeds the remaining character count, advance fails
fatally (the unwrap on the exhausted iterator, modelled as none) and never
returns normally having consumed fewer than n characters. -/
theorem c7_advance_overrun_fails (p : Position) (n : Nat)
    (h : p.content.length < n) : p.advance n = none :=
  advance_none n p h

/-- Claim C7, witness: advancing a two-character document by 3 fails. -/
theorem c7_witness :
    (Position.new "ab").content.length < 3 ∧
    (Position.new "ab").advance 3 = none :=
  ⟨by decide, c7_advance_overrun_fails (Position.new "ab") 3 (by decide)⟩

/-- Claim C9: cloning a Position copies line, column and the remaining
stream field-wise, so the clone is a faithful snapshot, and the clone can
be advanced on its own; advance is a pure function returning a fresh
Position, so the original cursor keeps its line, column and remaining
stream. -/
theorem c9_clone_snapshot (p : Position) (n : Nat) (h : n ≤ p.content.length) :
    Position.clone p = p ∧
    ∃ q, (Position.clone p).advance n = some q ∧
      q.content = p.content.drop n := by
  refine ⟨rfl, ?_⟩
  obtain ⟨q, hq, hc, _, _⟩ := advance_some n p h
  exact ⟨q, hq, hc⟩

/-- Claim C9, witness at a two-character document advanced by 1. -/
theorem c9_witness :
    1 ≤ (Position.new "ab").content.length ∧
    (Position.clone (Position.new "ab") = Position.new "ab" ∧
      ∃ q, (Position.clone (Position.new "ab")).advance 1 = some q ∧
        q.content = (Position.new "ab").content.drop 1) :=
  ⟨by decide, c9_clone_snapshot (Position.new "ab") 1 (by decide)⟩

/-- Claim C8: for a checker response whose matches have ascending offsets
and lie within the chunk (offset plus length at most the chunk total) and a
chunk total within the remaining stream, output_diagnostics succeeds and in
aggregate advances the shared tracker by exactly the chunk total, whatever
the number of matches. -/
theorem c8_output_diagnostics_consumes_total (p : Position) (resp : CheckResponse)
    (total : Nat) (url : String)
    (hsort : List.Pairwise (fun a b => a.offset ≤ b.offset) resp.matchList)
    (hin : ∀ m ∈ resp.matchList, m.offset + m.length ≤ total)
    (htot : total ≤ p.content.length) :
    ∃ final out, output_diagnostics p resp total url = some (final, out) ∧
      p.advance total = some final := by
  obtain ⟨pf, lastf, out, heq, _, h2, hadv⟩ :=
    mapMatches_spec url resp.matchList p 0 total hsort
      (fun m hm => ⟨Nat.zero_le _, hin m hm⟩) (Nat.zero_le _) (by simpa using htot)
  have hnotlt : ¬ total < lastf := by omega
  have hpflen : pf.content.length = p.content.length - lastf := by
    have hc := advance_content (lastf - 0) p pf hadv
    rw [hc, List.length_drop, Nat.sub_zero]
  have hadv3 : total - lastf ≤ pf.content.length := by omega
  obtain ⟨final, hfin, _, _, _⟩ := advance_some (total - lastf) pf hadv3
  refine ⟨final, out, ?_, ?_⟩
  · unfold output_diagnostics
    simp only [heq]
    rw [if_neg hnotlt]
    simp only [hfin]
  · have e : total = lastf + (total - lastf) := by omega
    rw [e, advance_add]
    rw [show p.advance lastf = some pf from by simpa using hadv]
    exact hfin

/-- Claim C8, witness: one match (offset 0, length 1) on the document abc
with chunk total 3, where the tracker ends having consumed exactly 3. -/
theorem c8_witness :
    List.Pairwise (fun a b => Match.offset a ≤ Match.offset b)
      [(⟨0, 1, "m", []⟩ : Match)] ∧
    (∀ m ∈ [(⟨0, 1, "m", []⟩ : Match)], m.offset + m.length ≤ 3) ∧
    3 ≤ (Position.new "abc").content.length ∧
    ∃ final out, output_diagnostics (Position.new "abc") ⟨[⟨0, 1, "m", []⟩]⟩ 3 "u"
        = some (final, out) ∧
      (Position.new "abc").advance 3 = some final :=
  ⟨by simp, by decide, by decide,
   c8_output_diagnostics_consumes_total (Position.new "abc") ⟨[⟨0, 1, "m", []⟩]⟩ 3 "u"
     (by simp) (by decide) (by decide)⟩

/-- Claim C10: Backend::code_action only consults the start of the query
range, so two queries on the same document whose ranges share a start
return identical action lists whatever their ends. -/
theorem c10_code_action_start_only (store : Store) (uri : String)
    (r1 r2 : LspRange) (h : r1.start = r2.start) :
    code_action store uri r1 = code_action store uri r2 := by
  obtain ⟨s1, e1⟩ := r1
  obtain ⟨s2, e2⟩ := r2
  have h2 : s1 = s2 := h
  subst h2
  rfl

/-- Claim C10, witness: two queries with equal start (0,1) and different
ends return the same actions on a store with one diagnostic. -/
theorem c10_witness :
    (⟨⟨0, 1⟩, ⟨0, 2⟩⟩ : LspRange).start = (⟨⟨0, 1⟩, ⟨5, 7⟩⟩ : LspRange).start ∧
    code_action [("u", [(⟨⟨⟨0, 0⟩, ⟨0, 4⟩⟩, "m"⟩, [⟨"t", quickfix, ⟨[]⟩, true⟩])])]
        "u" ⟨⟨0, 1⟩, ⟨0, 2⟩⟩
      = code_action [("u", [(⟨⟨⟨0, 0⟩, ⟨0, 4⟩⟩, "m"⟩, [⟨"t", quickfix, ⟨[]⟩, true⟩])])]
        "u" ⟨⟨0, 1⟩, ⟨5, 7⟩⟩ :=
  ⟨rfl, c10_code_action_start_only _ "u" _ _ rfl⟩

end TypstLt
